import Mathlib

/-!
Verification development for the silly-game-engine runtime core.

The definitions below shallowly embed the Rust source:
  * `src/engine/context/transform.rs` — `BasicTransform`, `RegistryTransform`,
    `TransformRegistry` and the `Transform` handle component;
  * `src/engine/component.rs` — the type-erased `ComponentSet`;
  * `src/physics/rapier_engine.rs` — `RapierEngine::new`, `step`,
    `handle_command`, `run_on_rb` and the transform write-back loop;
  * `src/physics/mod.rs` — the physics thread loop of
    `PhysicsEngine::start_physics`;
  * `src/engine/mod.rs` — `Engine::handle_messages`.

Scalars (`f32`/`f64` in the source) are modelled as exact integers (every operation the embedded code performs is a ring operation, and every concrete scenario uses integral coordinates); vector and
quaternion arithmetic follows glam's scalar formulas exactly.  Recursion that
is unbounded in the source (`TransformRegistry::get` walks the parent chain
with no cycle guard) is modelled with an explicit fuel parameter whose
exhaustion marks divergence of the source recursion.  `Option`-returning Rust
functions map to `Option`; a Rust `unwrap` on a missing value maps to a
distinguished `panicked` outcome; `anyhow::Result` maps to `Except String`.
-/

/-- Three-component vector, modelling `glam::Vec3` over exact scalars. -/
structure Vec3 where
  x : ℤ
  y : ℤ
  z : ℤ
deriving DecidableEq, Repr

namespace Vec3

def add (a b : Vec3) : Vec3 := ⟨a.x + b.x, a.y + b.y, a.z + b.z⟩

instance : Add Vec3 := ⟨Vec3.add⟩

def smul (c : ℤ) (v : Vec3) : Vec3 := ⟨c * v.x, c * v.y, c * v.z⟩

def dot (a b : Vec3) : ℤ := a.x * b.x + a.y * b.y + a.z * b.z

def cross (a b : Vec3) : Vec3 :=
  ⟨a.y * b.z - a.z * b.y, a.z * b.x - a.x * b.z, a.x * b.y - a.y * b.x⟩

def zero : Vec3 := ⟨0, 0, 0⟩

end Vec3

/-- Quaternion, modelling `glam::Quat` (x, y, z imaginary parts, w real). -/
structure Quat where
  x : ℤ
  y : ℤ
  z : ℤ
  w : ℤ
deriving DecidableEq, Repr

namespace Quat

/-- Hamilton product, as in glam's `Quat::mul_quat`. -/
def mul (a b : Quat) : Quat :=
  ⟨a.w * b.x + a.x * b.w + a.y * b.z - a.z * b.y,
   a.w * b.y - a.x * b.z + a.y * b.w + a.z * b.x,
   a.w * b.z + a.x * b.y - a.y * b.x + a.z * b.w,
   a.w * b.w - a.x * b.x - a.y * b.y - a.z * b.z⟩

/-- glam's scalar `Quat::mul_vec3`:
`v * (w*w - b.b) + b * (v.b * 2) + (b × v) * (w * 2)` where `b` is the
imaginary part. -/
def mulVec3 (q : Quat) (v : Vec3) : Vec3 :=
  let b : Vec3 := ⟨q.x, q.y, q.z⟩
  Vec3.smul (q.w * q.w - Vec3.dot b b) v +
    Vec3.smul (Vec3.dot v b * 2) b +
    Vec3.smul (q.w * 2) (Vec3.cross b v)

def identity : Quat := ⟨0, 0, 0, 1⟩

end Quat

/-- Source `BasicTransform` from `src/engine/context/transform.rs`: translation,
rotation, scale. -/
structure BasicTransform where
  translation : Vec3
  rotation : Quat
  scale : Vec3
deriving DecidableEq, Repr

namespace BasicTransform

/-- Source `BasicTransform::add` from the source:
`translation = (rhs.rotation * self.translation) + rhs.translation`,
`rotation = rhs.rotation * self.rotation`, `scale = self.scale + rhs.scale`. -/
def add (self rhs : BasicTransform) : BasicTransform :=
  ⟨Quat.mulVec3 rhs.rotation self.translation + rhs.translation,
   Quat.mul rhs.rotation self.rotation,
   self.scale + rhs.scale⟩

end BasicTransform

/-- The composition operator as the SPEC words it (§3): `translation' =
parent.rotation * local.translation + parent.translation`, `rotation' =
parent.rotation * local.rotation`, `scale' = parent.scale + local.scale`.
Declared only to compare against the source's composition. -/
def specCompose (parentGlobal localT : BasicTransform) : BasicTransform :=
  ⟨Quat.mulVec3 parentGlobal.rotation localT.translation + parentGlobal.translation,
   Quat.mul parentGlobal.rotation localT.rotation,
   parentGlobal.scale + localT.scale⟩

/-- Transform ids (`TransformId(Uuid)` in the source) are modelled as
naturals. -/
def TransformId : Type := ℕ
deriving DecidableEq, Repr

instance : OfNat TransformId n := ⟨(n : ℕ)⟩

/-- Source `RegistryTransform`: the node stored in the registry.  Field `local_`
models the source field `local` (a Lean keyword), `global_` models `global`.
The stored `global` field is whatever was last written there; `get`
recomputes it on every call. -/
structure RegistryTransform where
  id : TransformId
  parent : Option TransformId
  local_ : BasicTransform
  global_ : BasicTransform
deriving DecidableEq, Repr

/-- Source `TransformRegistry`'s `transforms: HashMap<TransformId, RegistryTransform>`
modelled as an association list with unique keys (`List.lookup` is the map
lookup). -/
def TransformRegistry : Type := List (TransformId × RegistryTransform)
deriving DecidableEq, Repr

namespace TransformRegistry

/-- Result of `TransformRegistry::get`.  The source function
```
pub fn get(&self, id: TransformId) -> Option<RegistryTransform> {
    let mut transform = *self.transforms.get(&id)?;
    if let Some(parent) = transform.parent {
        transform.global = self.get(parent)?.global.add(transform.local);
        Some(transform)
    } else {
        transform.global = transform.local;
        Some(transform)
    }
}
```
recurses on the parent chain with no cycle guard, so the Lean model takes a
fuel argument: `found`/`miss` are the source's `Some`/`None`; `fuelOut` marks
a recursion that has not bottomed out within the given depth (the source
recursion diverges exactly when no finite fuel avoids `fuelOut`). -/
inductive GetRes where
  | found (t : RegistryTransform)
  | miss
  | fuelOut
deriving DecidableEq, Repr

/-- Fuel-indexed model of `TransformRegistry::get`. -/
def get : ℕ → TransformRegistry → TransformId → GetRes
  | 0, _, _ => .fuelOut
  | fuel + 1, reg, i =>
    match List.lookup i reg with
    | none => .miss
    | some t =>
      match t.parent with
      | none => .found { t with global_ := t.local_ }
      | some p =>
        match get fuel reg p with
        | .found pt => .found { t with global_ := BasicTransform.add pt.global_ t.local_ }
        | .miss => .miss
        | .fuelOut => .fuelOut

/-- Source `TransformRegistry::set`: `Some(self.transforms.get_mut(&id)?.local = t)`
— update only the `local` field, `None` when the id is absent.  The model
returns the updated registry alongside the source's `Option<()>`. -/
def set (reg : TransformRegistry) (i : TransformId) (t : BasicTransform) :
    Option TransformRegistry :=
  match List.lookup i reg with
  | none => none
  | some _ =>
    some (reg.map (fun p => if p.1 = i then (p.1, { p.2 with local_ := t }) else p))

/-- Projection used to state results about resolved globals. -/
def GetRes.global? : GetRes → Option BasicTransform
  | .found t => some t.global_
  | .miss => none
  | .fuelOut => none

end TransformRegistry

instance {ε α : Type} [DecidableEq ε] [DecidableEq α] : DecidableEq (Except ε α) :=
  fun x y =>
    match x, y with
    | .ok a, .ok b =>
      if h : a = b then isTrue (by rw [h]) else isFalse (fun hc => by cases hc; exact h rfl)
    | .error e, .error f =>
      if h : e = f then isTrue (by rw [h]) else isFalse (fun hc => by cases hc; exact h rfl)
    | .ok _, .error _ => isFalse (fun hc => by cases hc)
    | .error _, .ok _ => isFalse (fun hc => by cases hc)

/-- Outcome of a `Transform` handle operation.  `ok` is `Some`, `absent` is
`None`, `panicked` marks a Rust `unwrap()` of `None`, `diverged` marks a call
whose inner `TransformRegistry::get` recursion does not terminate. -/
inductive Outcome (α : Type) where
  | ok (a : α)
  | absent
  | panicked
  | diverged
deriving DecidableEq, Repr

namespace Transform

/-- Source `Transform::local`:
`Some(reg.read().unwrap().get(self.id)?.local())`.  The handle's
`context.get::<TransformRegistry>()?` is modelled by the `Option` registry
argument. -/
def getLocal (ctx : Option TransformRegistry) (fuel : ℕ) (i : TransformId) :
    Outcome BasicTransform :=
  match ctx with
  | none => .absent
  | some reg =>
    match TransformRegistry.get fuel reg i with
    | .found t => .ok t.local_
    | .miss => .absent
    | .fuelOut => .diverged

/-- Source `Transform::global`:
`Some(reg.read().unwrap().get(self.id)?.global())`. -/
def getGlobal (ctx : Option TransformRegistry) (fuel : ℕ) (i : TransformId) :
    Outcome BasicTransform :=
  match ctx with
  | none => .absent
  | some reg =>
    match TransformRegistry.get fuel reg i with
    | .found t => .ok t.global_
    | .miss => .absent
    | .fuelOut => .diverged

/-- Source `Transform::set`: `reg.write().unwrap().set(self.id, transform)` behind
`context.get::<TransformRegistry>()?`.  Returns the outcome and the registry
after the call. -/
def set (ctx : Option TransformRegistry) (i : TransformId) (t : BasicTransform) :
    Outcome Unit × Option TransformRegistry :=
  match ctx with
  | none => (.absent, ctx)
  | some reg =>
    match TransformRegistry.set reg i t with
    | none => (.absent, some reg)
    | some reg' => (.ok (), some reg')

/-- Source `Transform::with_mut`:
```
let mut reg_t = reg.write().unwrap().get(self.id).unwrap();
let t_mut = reg_t.local_mut();
Some(f(t_mut))
```
`get` returns the node BY VALUE (`RegistryTransform` is `Copy`), so `f`
mutates a local copy that is then dropped: the registry is returned
unchanged.  The `unwrap()` on `get`'s result is a panic when the id is
absent.  `f` is modelled as producing the mutated transform together with its
return value; the mutated transform is discarded exactly as in the source. -/
def with_mut {R : Type} (ctx : Option TransformRegistry) (fuel : ℕ)
    (i : TransformId) (f : BasicTransform → BasicTransform × R) :
    Outcome R × Option TransformRegistry :=
  match ctx with
  | none => (.absent, ctx)
  | some reg =>
    match TransformRegistry.get fuel reg i with
    | .found t => (.ok (f t.local_).2, some reg)
    | .miss => (.panicked, some reg)
    | .fuelOut => (.diverged, some reg)

end Transform

/-- Source `Transform3D` from `src/engine/component.rs` — position, rotation, scale.
This is also the value produced by the entity `transform()` accessor used by
`rapier_engine.rs` (the accessor's declaration is not in the `Entity` trait in
the sources; its call sites read and write the `position` and `rotation`
fields of a `Transform3D`-shaped value, which is what is modelled here). -/
structure Transform3D where
  position : Vec3
  rotation : Quat
  scale : Vec3
deriving DecidableEq, Repr

/-- Model of a `rapier3d::RigidBody` as the repository observes it: a
position/rotation (`rb.position()`), velocities and accumulated forces.  The
rapier operations invoked by `rapier_engine.rs` are modelled as field
updates below. -/
structure PhysRigidBody where
  position : Vec3
  rotation : Quat
  linvel : Vec3
  angvel : Vec3
  force : Vec3
  torque : Vec3
deriving DecidableEq, Repr

/-- Colliders are opaque to every claim; a tag suffices. -/
def Collider : Type := ℕ
deriving DecidableEq, Repr

instance : OfNat Collider n := ⟨(n : ℕ)⟩

/-- Source `RigidBodyState` from `src/physics/mod.rs`: Pending carries the full body
description, Active an opaque handle into the physics world (modelled as an
index into the `RigidBodySet` list), Removed is inert. -/
inductive RigidBodyState where
  | pending (rb : PhysRigidBody)
  | active (handle : ℕ)
  | removed
deriving DecidableEq, Repr

/-- Source `PhysicsBody` component: collider plus rigid-body state. -/
structure PhysicsBody where
  collider : Collider
  rigid_body : RigidBodyState
deriving DecidableEq, Repr

/-- Entity as the physics bridge sees it: its id (`Uuid` modelled as ℕ), its
transform (via the `transform()`/`transform_mut()` accessors) and its
`PhysicsBody` component, if any (`components().get::<PhysicsBody>()`). -/
structure EntityP where
  transform : Transform3D
  body : Option PhysicsBody
deriving DecidableEq, Repr

/-- Source `RigidBodySet` modelled as an arena list: a handle is the index at
insertion time; `insert` returns the fresh handle. -/
def RigidBodySet : Type := List PhysRigidBody
deriving DecidableEq, Repr

namespace RigidBodySet

def insert (s : RigidBodySet) (rb : PhysRigidBody) : ℕ × RigidBodySet :=
  (List.length s, List.append s [rb])

def lookup (s : RigidBodySet) (h : ℕ) : Option PhysRigidBody :=
  List.get? s h

def update (s : RigidBodySet) (h : ℕ) (rb : PhysRigidBody) : RigidBodySet :=
  List.set s h rb

end RigidBodySet

/-- Source `PhysicsCommand` from `src/physics/commands.rs`, with payloads as matched
by `RapierEngine::handle_command` (the engine matches `SetRotation` with a
quaternion payload). -/
inductive PhysicsCommand where
  | enable (id : ℕ)
  | disable (id : ℕ)
  | applyForce (id : ℕ) (force : Vec3)
  | applyTorque (id : ℕ) (torque : Vec3)
  | applyImpulse (id : ℕ) (impulse : Vec3)
  | applyTorqueImpulse (id : ℕ) (impulse : Vec3)
  | setLinearVelocity (id : ℕ) (velocity : Vec3)
  | setAngularVelocity (id : ℕ) (velocity : Vec3)
  | setPosition (id : ℕ) (translation : Vec3) (rotation : Quat)
  | setTranslation (id : ℕ) (translation : Vec3)
  | setRotation (id : ℕ) (rotation : Quat)
  | setDensity (id : ℕ) (density : ℤ)
deriving DecidableEq, Repr

namespace RapierEngine

/-- The entity registry as iterated by the physics bridge:
id → entity, iteration in list order (`EntityRegistry::into_iter`). -/
def Entities : Type := List (ℕ × EntityP)
deriving DecidableEq, Repr

/-- Source `RapierEngine::new`'s construction scan
(`src/physics/rapier_engine.rs:36-94`): for each entity with a `PhysicsBody`
component, a Pending body first gets its position set from the entity's
current transform (`rigid_body.set_position((transform.position,
transform.rotation).into(), true)`), is inserted into the rigid-body set, and
the component becomes Active with the returned handle; the collider is
attached to that handle; an Active or Removed body is logged and skipped; an
entity without the component is skipped. -/
def new : Entities → RigidBodySet → List (Collider × ℕ) →
    Entities × RigidBodySet × List (Collider × ℕ)
  | [], bodies, colliders => ([], bodies, colliders)
  | (i, e) :: rest, bodies, colliders =>
    match e.body with
    | none =>
      let r := new rest bodies colliders
      ((i, e) :: r.1, r.2)
    | some pb =>
      match pb.rigid_body with
      | .pending rb =>
        let rb' := { rb with position := e.transform.position,
                             rotation := e.transform.rotation }
        let ins := bodies.insert rb'
        let e' := { e with body := some { pb with rigid_body := .active ins.1 } }
        let r := new rest ins.2 (colliders ++ [(pb.collider, ins.1)])
        ((i, e') :: r.1, r.2)
      | .active _ =>
        let r := new rest bodies colliders
        ((i, e) :: r.1, r.2)
      | .removed =>
        let r := new rest bodies colliders
        ((i, e) :: r.1, r.2)

/-- Source `RapierEngine::run_on_rb` (`src/physics/rapier_engine.rs:241-265`): look
up the entity, its `PhysicsBody` component, its Active handle, and the rigid
body behind the handle; each miss is a descriptive error.  Only the
rigid-body set is ever mutated — the error strings are those of the source. -/
def run_on_rb (ents : Entities) (bodies : RigidBodySet) (i : ℕ)
    (op : PhysRigidBody → PhysRigidBody) : Except String RigidBodySet :=
  match List.lookup i ents with
  | none => .error "no entity with provided id found"
  | some e =>
    match e.body with
    | none => .error "entity has no physics body component"
    | some pb =>
      match pb.rigid_body with
      | .active h =>
        match bodies.lookup h with
        | some rb => .ok (bodies.update h (op rb))
        | none => .error "rigid body handle leads to no rigid body"
      | .removed => .error "rigid body has been removed"
      | .pending _ => .error "cannot mutate pending body"

/-- The rapier3d rigid-body mutation each implemented command performs,
modelled as a state update (`add_force` accumulates, the setters overwrite,
impulses feed the velocities). -/
def opOf : PhysicsCommand → Option (ℕ × (PhysRigidBody → PhysRigidBody))
  | .applyForce i f => some (i, fun rb => { rb with force := rb.force + f })
  | .applyTorque i t => some (i, fun rb => { rb with torque := rb.torque + t })
  | .applyImpulse i imp => some (i, fun rb => { rb with linvel := rb.linvel + imp })
  | .applyTorqueImpulse i imp => some (i, fun rb => { rb with angvel := rb.angvel + imp })
  | .setLinearVelocity i v => some (i, fun rb => { rb with linvel := v })
  | .setAngularVelocity i v => some (i, fun rb => { rb with angvel := v })
  | .setPosition i t r => some (i, fun rb => { rb with position := t, rotation := r })
  | .setTranslation i t => some (i, fun rb => { rb with position := t })
  | .setRotation i r => some (i, fun rb => { rb with rotation := r })
  | .enable _ => none
  | .disable _ => none
  | .setDensity _ _ => none

/-- Source `RapierEngine::handle_command`: implemented commands dispatch to
`run_on_rb`; the rest hit the catch-all `"i haven't done this physics command
yet lol"` error. -/
def handle_command (ents : Entities) (bodies : RigidBodySet)
    (c : PhysicsCommand) : Except String RigidBodySet :=
  match opOf c with
  | some p => run_on_rb ents bodies p.1 p.2
  | none => .error "i haven't done this physics command yet lol"

/-- One iteration of the command-drain loop in `step`: an `Ok` replaces the
set, an `Err` is logged (`skipped physics command`) and dropped, leaving the
set unchanged. -/
def applyCommand (ents : Entities) (bodies : RigidBodySet)
    (c : PhysicsCommand) : RigidBodySet :=
  match handle_command ents bodies c with
  | .ok bodies' => bodies'
  | .error _ => bodies

/-- The full command drain: `try_iter().collect()` snapshots the channel, the
`for` loop applies each command in order. -/
def applyCommands (ents : Entities) (bodies : RigidBodySet)
    (queue : List PhysicsCommand) : RigidBodySet :=
  queue.foldl (applyCommand ents) bodies

/-- The write-back of one entity in `step`'s final loop
(`src/physics/rapier_engine.rs:126-151`): no component or a Removed body is
skipped; an Active body reads the simulated position behind its handle (the
source `unwrap`s the handle lookup — a dangling handle is a panic, modelled
as `none`); a Pending body reads the position of its own unstepped
description.  Position and rotation of the entity's transform are
overwritten; scale is untouched. -/
def writebackEntity (bodies : RigidBodySet) (e : EntityP) : Option EntityP :=
  match e.body with
  | none => some e
  | some pb =>
    match pb.rigid_body with
    | .removed => some e
    | .pending rb =>
      some { e with transform := { e.transform with position := rb.position,
                                                    rotation := rb.rotation } }
    | .active h =>
      match bodies.lookup h with
      | none => none
      | some rb =>
        some { e with transform := { e.transform with position := rb.position,
                                                      rotation := rb.rotation } }

/-- Write-back over the whole entity registry, in iteration order. -/
def writeback (bodies : RigidBodySet) : Entities → Option Entities
  | [] => some []
  | (i, e) :: rest =>
    match writebackEntity bodies e with
    | none => none
    | some e' =>
      match writeback bodies rest with
      | none => none
      | some rest' => some ((i, e') :: rest')

/-- The mutable state of `RapierEngine` that `step` touches, with the command
channel modelled as a queue of the commands it would yield. -/
structure State where
  entities : Entities
  bodies : RigidBodySet
  queue : List PhysicsCommand
deriving DecidableEq, Repr

/-- Source `RapierEngine::step` (`src/physics/rapier_engine.rs:96-154`): snapshot and
drain the command channel, apply every command (failures logged and
dropped), advance the pipeline once, then write simulated positions back
into the entities.  `advance` stands for
`physics_pipeline.step(&gravity, &integration_parameters, ...)` — the
external rapier3d call, which receives the fixed default
`IntegrationParameters` and the gravity, and NOT `delta`: the `delta`
argument is unused in the source body.  The result is `none` when the
write-back loop panics on a dangling Active handle. -/
def step (advance : RigidBodySet → RigidBodySet) (delta : ℤ)
    (st : State) : Option State :=
  let commands := st.queue
  let bodies1 := applyCommands st.entities st.bodies commands
  let bodies2 := advance bodies1
  match writeback bodies2 st.entities with
  | none => none
  | some es' => some { entities := es', bodies := bodies2, queue := [] }

end RapierEngine

namespace PhysicsEngine

/-- The delta computation of the physics thread loop in
`PhysicsEngine::start_physics` (`src/physics/mod.rs:62-87`):
`delta = Instant::now().duration_since(last_physics_step)` where
`last_physics_step` is set to `Instant::now()` once, in `PhysicsEngine::new`,
and never written again.  Given the construction instant `t0` and the
wall-clock instants of successive loop iterations, this yields the delta each
iteration passes to `step`. -/
def loopDeltas (t0 : ℤ) (stepInstants : List ℤ) : List ℤ :=
  stepInstants.map (fun t => t - t0)

end PhysicsEngine

/-- The runtime type identity (`std::any::TypeId`) of a component, as a small
closed universe: the two concrete component types the claims touch plus a
family of further types. -/
inductive CompTy where
  | t3d
  | pbody
  | tag (n : ℕ)
deriving DecidableEq, Repr

/-- The Rust type a `CompTy` identifies. -/
def CompTy.interp : CompTy → Type
  | .t3d => Transform3D
  | .pbody => PhysicsBody
  | .tag _ => ℕ

instance : (c : CompTy) → DecidableEq c.interp
  | .t3d => inferInstanceAs (DecidableEq Transform3D)
  | .pbody => inferInstanceAs (DecidableEq PhysicsBody)
  | .tag _ => inferInstanceAs (DecidableEq ℕ)

/-- A `Box<dyn Component>`: a value together with its concrete runtime type. -/
structure ErasedComp where
  ty : CompTy
  val : ty.interp

/-- Source `boxed.as_any().downcast_ref::<C>()`: the guarded downcast — compare the
stored concrete type identity with the requested one, yield the value on a
match and `None` otherwise. -/
def ErasedComp.downcast (c : CompTy) (e : ErasedComp) : Option c.interp :=
  if h : e.ty = c then some (h ▸ e.val) else none

/-- Source `ComponentSet`: `HashMap<TypeId, Box<dyn Component>>` as an association
list keyed by type identity. -/
def ComponentSet : Type := List (CompTy × ErasedComp)

namespace ComponentSet

/-- Source `ComponentSet::add`: `components.insert(TypeId::of::<C>(), Box::new(c))` —
insert or replace under the component's own type key. -/
def add (c : CompTy) (v : c.interp) (s : ComponentSet) : ComponentSet :=
  (c, ⟨c, v⟩) :: s.filter (fun p => decide (p.1 ≠ c))

/-- Source `ComponentSet::get`:
`components.get(&TypeId::of::<C>()).and_then(|b| b.as_any().downcast_ref())`. -/
def get (c : CompTy) (s : ComponentSet) : Option c.interp :=
  (List.lookup c s).bind (ErasedComp.downcast c)

/-- Source `ComponentSet::remove`: detach and return the boxed value if present. -/
def remove (c : CompTy) (s : ComponentSet) : Option ErasedComp × ComponentSet :=
  (List.lookup c s, s.filter (fun p => decide (p.1 ≠ c)))

end ComponentSet

/-- The per-subsystem message queues `Engine::handle_messages` drains
(`src/engine/mod.rs:96-136`), plus the rest of the engine state abstracted as
`ω`: the event handler's queue, the renderer's queue, and one queue per
entity in registry iteration order.  `μ` is the message type. -/
structure EngineSt (μ ω : Type) where
  ehQueue : List μ
  rQueue : List μ
  entityQueues : List (List μ)
  world : ω
deriving DecidableEq, Repr

namespace Engine

/-- The dispatch `match self.handle_message(msg)` with its
`Err => log and continue` arm: an erroring handler leaves the state as the
handler left it — the source's `handle_message` returns the error before or
after its effects; both are covered because `handler` is universally
quantified and may itself encode partial effects.  `handler` is the
behaviour of `Engine::handle_message`. -/
def applyMsg {μ ω : Type} (handler : μ → EngineSt μ ω → Except String (EngineSt μ ω))
    (m : μ) (s : EngineSt μ ω) : EngineSt μ ω :=
  match handler m s with
  | .ok s' => s'
  | .error _ => s

/-- The inner `while !queue.is_empty() { queue.pop_front() ... }` loop over
one drained queue; also returns the dispatch trace in order. -/
def drainQueue {μ ω : Type}
    (handler : μ → EngineSt μ ω → Except String (EngineSt μ ω)) :
    List μ → EngineSt μ ω → EngineSt μ ω × List μ
  | [], s => (s, [])
  | m :: q, s =>
    let s' := applyMsg handler m s
    let r := drainQueue handler q s'
    (r.1, m :: r.2)

/-- The outer `for queue in msg_queues.iter_mut()` loop. -/
def drainQueues {μ ω : Type}
    (handler : μ → EngineSt μ ω → Except String (EngineSt μ ω)) :
    List (List μ) → EngineSt μ ω → EngineSt μ ω × List μ
  | [], s => (s, [])
  | q :: qs, s =>
    let r := drainQueue handler q s
    let r' := drainQueues handler qs r.1
    (r'.1, r.2 ++ r'.2)

/-- Source `Engine::handle_messages`: build `msg_queues` = [event-handler queue,
renderer queue, concatenation of every entity's queue] as clones; the entity
queues are cleared while being collected, the event handler's and renderer's
queues are cleared right after; then the nested loops dispatch every
snapshotted message.  Returns the final state and the dispatch trace. -/
def handle_messages {μ ω : Type}
    (handler : μ → EngineSt μ ω → Except String (EngineSt μ ω))
    (s : EngineSt μ ω) : EngineSt μ ω × List μ :=
  let q1 := s.ehQueue
  let q2 := s.rQueue
  let q3 := s.entityQueues.flatten
  let s1 : EngineSt μ ω :=
    { s with entityQueues := s.entityQueues.map (fun _ => []) }
  let s2 : EngineSt μ ω := { s1 with ehQueue := [], rQueue := [] }
  drainQueues handler [q1, q2, q3] s2

/-- The state with all subsystem queues cleared, as it is right before the
dispatch loops start. -/
def cleared {μ ω : Type} (s : EngineSt μ ω) : EngineSt μ ω :=
  { s with ehQueue := [], rQueue := [],
           entityQueues := s.entityQueues.map (fun _ => []) }

end Engine

/-- A registry copy in which every stored (stale) `global` field has been
replaced arbitrarily; used to show `get` never reads the stored globals. -/
def mapGlobals (g : TransformId → BasicTransform) (reg : TransformRegistry) :
    TransformRegistry :=
  List.map (fun p => (p.1, { p.2 with global_ := g p.1 })) reg

/-- The identity quaternion value. -/
def qId : Quat := ⟨0, 0, 0, 1⟩

/-- A unit quaternion (180° about z) with exact rational coordinates. -/
def qZ180 : Quat := ⟨0, 0, 1, 0⟩

/-- Concrete parent local transform for the C1 scenario. -/
def c1ParentLocal : BasicTransform := ⟨⟨1, 0, 0⟩, qId, ⟨1, 1, 1⟩⟩

/-- Concrete child local transform for the C1 scenario. -/
def c1ChildLocal : BasicTransform := ⟨⟨0, 0, 0⟩, qZ180, ⟨1, 1, 1⟩⟩

/-- Two-node registry: node 1 is the child of root node 0. -/
def c1Reg : TransformRegistry :=
  [(0, ⟨0, none, c1ParentLocal, c1ParentLocal⟩),
   (1, ⟨1, some 0, c1ChildLocal, c1ChildLocal⟩)]

/-- Concrete local transform for the C2 scenario. -/
def c2Local : BasicTransform := ⟨⟨1, 1, 1⟩, qId, ⟨1, 1, 1⟩⟩

/-- One-node registry for the C2 scenario. -/
def c2Reg : TransformRegistry := [(0, ⟨0, none, c2Local, c2Local⟩)]

/-- The caller-supplied mutation of the C2 scenario: set translation to
(5,5,5); modelled as returning the mutated transform also as the `R`-typed
result of the closure. -/
def c2f : BasicTransform → BasicTransform × BasicTransform :=
  fun t => ({ t with translation := ⟨5, 5, 5⟩ }, { t with translation := ⟨5, 5, 5⟩ })

/-- Concrete local transform for the C3 scenario. -/
def c3Local : BasicTransform := ⟨⟨1, 2, 3⟩, qId, ⟨1, 1, 1⟩⟩

/-- A registry whose single node is its own parent: a cyclic parent chain. -/
def cycReg : TransformRegistry := [(0, ⟨0, some 0, c3Local, c3Local⟩)]

/-- Concrete transform used in the C4 scenario. -/
def c4Local : BasicTransform := ⟨⟨4, 4, 4⟩, qId, ⟨1, 1, 1⟩⟩

/-- A fresh rigid-body description used in the C5 scenario. -/
def c5PendingRb : PhysRigidBody :=
  ⟨Vec3.zero, qId, Vec3.zero, Vec3.zero, Vec3.zero, Vec3.zero⟩

/-- An entity with a Pending body, whose transform sits away from the body's
description position. -/
def c5Entity : EntityP :=
  ⟨⟨⟨2, 3, 4⟩, qZ180, ⟨1, 1, 1⟩⟩, some ⟨5, .pending c5PendingRb⟩⟩

/-- Construction-scan input: one Pending-bodied entity and one entity
without a physics component. -/
def c5Es : RapierEngine.Entities :=
  [(0, c5Entity), (1, ⟨⟨⟨0, 0, 0⟩, qId, ⟨1, 1, 1⟩⟩, none⟩)]

/-- An entity whose body has been Removed. -/
def c5RemovedEntity : EntityP := ⟨⟨⟨0, 0, 0⟩, qId, ⟨1, 1, 1⟩⟩, some ⟨9, .removed⟩⟩

/-- A step input state for the C5 witness. -/
def c5St : RapierEngine.State := ⟨[(0, c5RemovedEntity)], [], []⟩

/-- A trivial concrete stand-in for the rapier pipeline advance. -/
def c5adv : RigidBodySet → RigidBodySet := fun bs => bs

/-- Simulated rigid body for the C7 scenario. -/
def c7Rb : PhysRigidBody := ⟨⟨0, 10, 0⟩, qId, Vec3.zero, Vec3.zero, Vec3.zero, Vec3.zero⟩

/-- Entity with an Active body bound to handle 0. -/
def c7Entity : EntityP := ⟨⟨⟨0, 10, 0⟩, qId, ⟨1, 1, 1⟩⟩, some ⟨0, .active 0⟩⟩

/-- A step input state for the C7 counterexample. -/
def c7St : RapierEngine.State := ⟨[(0, c7Entity)], [c7Rb], []⟩

/-- A concrete, visibly state-changing stand-in for the rapier pipeline
advance (moves every body down one unit). -/
def c7advance : RigidBodySet → RigidBodySet :=
  fun bs => List.map (fun rb => { rb with position := rb.position + ⟨0, -1, 0⟩ }) bs

/-- Pending rigid-body description for the C10 scenario, away from the
entity's transform. -/
def c10Rb : PhysRigidBody := ⟨⟨3, 4, 5⟩, qId, Vec3.zero, Vec3.zero, Vec3.zero, Vec3.zero⟩

/-- Entity whose body is still Pending at write-back time. -/
def c10Entity : EntityP := ⟨⟨⟨0, 0, 0⟩, qZ180, ⟨1, 1, 1⟩⟩, some ⟨7, .pending c10Rb⟩⟩

/-- Concrete component value for the C9 witness. -/
def c9T3 : Transform3D := ⟨⟨1, 1, 1⟩, qId, ⟨1, 1, 1⟩⟩

/-- A store holding, under the `Transform3D` type key, a value whose concrete
type is different — the situation the guarded downcast must absorb. -/
def c9Mismatch : ComponentSet := [(CompTy.t3d, ⟨CompTy.tag 0, (42 : ℕ)⟩)]

/-- Per-entity contract of the construction scan (used to state C5):
relative to the rigid-body set left by the whole scan, an entity that had a
Pending body is now Active under some handle behind which the world stores
the description seeded with the entity's current transform; every other
entity is untouched. -/
def C5rel (finalBodies : RigidBodySet) (e e' : EntityP) : Prop :=
  match e.body with
  | none => e' = e
  | some pb =>
    match pb.rigid_body with
    | .pending rb => ∃ hdl,
        e' = { e with body := some { pb with rigid_body := .active hdl } } ∧
        finalBodies.lookup hdl =
          some { rb with position := e.transform.position,
                         rotation := e.transform.rotation }
    | .active _ => e' = e
    | .removed => e' = e

theorem lookup_mapGlobals (g : TransformId → BasicTransform)
    (reg : TransformRegistry) (i : TransformId) :
    List.lookup i (mapGlobals g reg) =
      (List.lookup i reg).map (fun t => { t with global_ := g i }) := by
  induction reg with
  | nil => rfl
  | cons hd tl ih =>
    by_cases h : i = hd.1
    · simp [mapGlobals, List.lookup, h]
    · simpa [mapGlobals, List.lookup, h, beq_false_of_ne h] using ih

theorem get_mapGlobals (n : ℕ) (g : TransformId → BasicTransform)
    (reg : TransformRegistry) (i : TransformId) :
    TransformRegistry.get n (mapGlobals g reg) i = TransformRegistry.get n reg i := by
  induction n generalizing i with
  | zero => rfl
  | succ k ih =>
    simp only [TransformRegistry.get, lookup_mapGlobals]
    cases h : List.lookup i reg with
    | none => rfl
    | some t =>
      cases hp : t.parent with
      | none => simp [hp]
      | some p => simp [hp, ih p]

/-- C1 (amended).  For every id present in the registry,
`TransformRegistry::get` resolves the node's global by re-walking the parent
chain's current local values: with no parent, global = local; with a parent
resolving to `pt`, the composed global is `pt.global.add(local)` with the
source's `BasicTransform::add`, i.e. componentwise
`translation' = local.rotation * parent.translation + local.translation`,
`rotation' = local.rotation * parent.rotation`,
`scale' = parent.scale + local.scale` — the roles of parent and local in the
spec's translation/rotation formulas are swapped (scale stays additive).
The resolution never reads the stored global fields, so any ancestor local
changed via `set` is reflected immediately. -/
theorem C1_global_composition (reg : TransformRegistry) (i : TransformId)
    (t : RegistryTransform) (n : ℕ) (hl : List.lookup i reg = some t) :
    (t.parent = none →
      TransformRegistry.get (n + 1) reg i =
        .found { t with global_ := t.local_ }) ∧
    (∀ p pt, t.parent = some p →
      TransformRegistry.get n reg p = .found pt →
      TransformRegistry.get (n + 1) reg i =
        .found { t with global_ :=
          ⟨Quat.mulVec3 t.local_.rotation pt.global_.translation + t.local_.translation,
           Quat.mul t.local_.rotation pt.global_.rotation,
           pt.global_.scale + t.local_.scale⟩ }) ∧
    (∀ g, TransformRegistry.get (n + 1) (mapGlobals g reg) i =
      TransformRegistry.get (n + 1) reg i) := by
  refine ⟨?_, ?_, fun g => get_mapGlobals (n + 1) g reg i⟩
  · intro hp
    simp [TransformRegistry.get, hl, hp]
  · intro p pt hp hpt
    simp [TransformRegistry.get, hl, hp, hpt, BasicTransform.add]

/-- C1 witness: the characterization applied to the concrete two-node
registry `c1Reg` at child id 1 resolves the child's global to the composed
value (−1,0,0) / 180°-about-z / (2,2,2). -/
theorem C1_witness :
    TransformRegistry.get 2 c1Reg 1 =
      .found ⟨1, some 0, c1ChildLocal, ⟨⟨-1, 0, 0⟩, ⟨0, 0, 1, 0⟩, ⟨2, 2, 2⟩⟩⟩ := by
  have h := (C1_global_composition c1Reg 1 ⟨1, some 0, c1ChildLocal, c1ChildLocal⟩ 1
      (by decide)).2.1 0 ⟨0, none, c1ParentLocal, c1ParentLocal⟩ rfl (by decide)
  exact h.trans (by decide)

/-- C1 counterexample: in `c1Reg`, the child's resolved global does NOT
satisfy the spec's composition rule — the code puts the child translation at
(−1,0,0) while `parent.rotation * local.translation + parent.translation`
gives (1,0,0). -/
theorem C1_counterexample :
    TransformRegistry.GetRes.global? (TransformRegistry.get 2 c1Reg 1) ≠
        some (specCompose c1ParentLocal c1ChildLocal) ∧
    TransformRegistry.GetRes.global? (TransformRegistry.get 2 c1Reg 0) =
        some c1ParentLocal ∧
    (TransformRegistry.GetRes.global? (TransformRegistry.get 2 c1Reg 1)).map
        (fun b => b.translation) = some ⟨-1, 0, 0⟩ ∧
    (specCompose c1ParentLocal c1ChildLocal).translation = ⟨1, 0, 0⟩ := by
  decide

/-- C2: `Transform::with_mut` applies the caller's function to a COPY of the
stored local transform and returns the registry unchanged — the mutation is
never written back.  At the concrete one-node registry `c2Reg`, after
`with_mut` the stored local is still `c2Local`, not `f(c2Local)`. -/
theorem C2_with_mut_discards_write :
    Transform.with_mut (some c2Reg) 2 0 c2f =
      (Outcome.ok { c2Local with translation := ⟨5, 5, 5⟩ }, some c2Reg) ∧
    Transform.getLocal (some c2Reg) 2 0 = .ok c2Local ∧
    { c2Local with translation := ⟨5, 5, 5⟩ } ≠ c2Local := by
  decide

/-- C3: on the cyclic registry `cycReg` (node 0 is its own parent), the
recursion of `TransformRegistry::get` never bottoms out at any finite depth
— the source function neither walks a bounded depth nor returns an error; it
recurses forever — even though the id is present in the map. -/
theorem C3_cycle_never_terminates :
    (∀ n, TransformRegistry.get n cycReg 0 = .fuelOut) ∧
    List.lookup 0 cycReg = some ⟨0, some 0, c3Local, c3Local⟩ := by
  refine ⟨?_, by decide⟩
  intro n
  induction n with
  | zero => rfl
  | succ k ih =>
    simp only [cycReg] at ih ⊢
    simp [TransformRegistry.get, List.lookup, ih]

/-- C4: on a transform id absent from the registry, `Transform::local`,
`Transform::global` and `Transform::set` return absent, and a physics
command against an unknown entity id returns a descriptive error — but
`Transform::with_mut` PANICS (it `unwrap`s the failed registry lookup)
instead of returning absent. -/
theorem C4_lookup_miss_behaviour :
    Transform.with_mut (some ([] : TransformRegistry)) 1 0
        (fun t => (t, t)) = (Outcome.panicked, some []) ∧
    Outcome.panicked ≠ (Outcome.absent : Outcome BasicTransform) ∧
    Transform.getLocal (some ([] : TransformRegistry)) 1 0 = .absent ∧
    Transform.getGlobal (some ([] : TransformRegistry)) 1 0 = .absent ∧
    Transform.set (some ([] : TransformRegistry)) 0 c4Local = (.absent, some []) ∧
    RapierEngine.run_on_rb [] [] 0 (fun rb => rb) =
      .error "no entity with provided id found" := by
  decide

/-- C9: for every component type and value, `get` after `add` returns the
stored value (insertion keys by the component's own type identity and
replaces, so the round-trip holds over ANY prior store state); and on a
store whose value under the requested key has a different concrete type,
the guarded downcast makes `get` yield absent rather than erroring. -/
theorem C9_component_roundtrip :
    (∀ (c : CompTy) (v : c.interp) (s : ComponentSet),
      ComponentSet.get c (ComponentSet.add c v s) = some v) ∧
    (∀ (c : CompTy) (s : ComponentSet) (e : ErasedComp),
      List.lookup c s = some e → e.ty ≠ c → ComponentSet.get c s = none) := by
  constructor
  · intro c v s
    simp [ComponentSet.get, ComponentSet.add, List.lookup, ErasedComp.downcast]
  · intro c s e hl hne
    simp [ComponentSet.get, hl, ErasedComp.downcast, hne]

/-- C9 witness: round-trip of a concrete `Transform3D` value on the empty
store, and absence on the concrete mismatched store. -/
theorem C9_witness :
    ComponentSet.get CompTy.t3d (ComponentSet.add CompTy.t3d c9T3 []) = some c9T3 ∧
    ComponentSet.get CompTy.t3d c9Mismatch = none :=
  ⟨C9_component_roundtrip.1 CompTy.t3d c9T3 [],
   C9_component_roundtrip.2 CompTy.t3d c9Mismatch ⟨CompTy.tag 0, (42 : ℕ)⟩ rfl
     (by decide)⟩

/-- C10: in the write-back loop of `RapierEngine::step`, an entity whose
body is still Pending gets its transform position/rotation overwritten from
the unstepped pending rigid-body description; only a Removed body (or a
missing component) leaves the entity untouched. -/
theorem C10_pending_writeback :
    ∀ (bodies : RigidBodySet) (e : EntityP) (pb : PhysicsBody),
      e.body = some pb →
      (∀ rb, pb.rigid_body = .pending rb →
        RapierEngine.writebackEntity bodies e =
          some { e with
                 transform := { e.transform with
                                position := rb.position,
                                rotation := rb.rotation } }) ∧
      (pb.rigid_body = .removed →
        RapierEngine.writebackEntity bodies e = some e) := by
  intro bodies e pb hb
  constructor
  · intro rb hp
    simp [RapierEngine.writebackEntity, hb, hp]
  · intro hp
    simp [RapierEngine.writebackEntity, hb, hp]

/-- C10 witness: the concrete Pending-bodied entity `c10Entity` has its
transform overwritten with the pending description's (3,4,5)/identity pose,
keeping its scale. -/
theorem C10_witness :
    RapierEngine.writebackEntity [] c10Entity =
      some ⟨⟨⟨3, 4, 5⟩, qId, ⟨1, 1, 1⟩⟩, some ⟨7, .pending c10Rb⟩⟩ := by
  have h := (C10_pending_writeback [] c10Entity ⟨7, .pending c10Rb⟩ rfl).1 c10Rb rfl
  exact h.trans (by decide)

/-- C7 counterexample: `RapierEngine::step` produces the same state for
delta 10 as for delta 1000 (its `delta` parameter does not influence the
integration at all), while genuinely advancing the state; and the loop of
`PhysicsEngine::start_physics` measures each delta from the construction
instant (10 then 20 for steps at t=10 and t=20), not from the previous step
(10 then 10). -/
theorem C7_counterexample :
    RapierEngine.step c7advance 10 c7St = RapierEngine.step c7advance 1000 c7St ∧
    (10 : ℤ) ≠ 1000 ∧
    RapierEngine.step c7advance 10 c7St ≠ some c7St ∧
    PhysicsEngine.loopDeltas 0 [10, 20] = [10, 20] ∧
    ([10, 20] : List ℤ) ≠ [10, 10] := by
  decide

/-- C7 (amended): each physics-thread iteration advances the world by one
`step` whose result is entirely independent of the wall-clock delta argument
(the source's `step` never reads `delta`; the pipeline runs with the default
fixed integration parameters), and the delta it computes is measured from
the construction instant, which is never updated. -/
theorem C7_step_ignores_delta :
    ∀ (advance : RigidBodySet → RigidBodySet) (d1 d2 : ℤ)
      (st : RapierEngine.State),
      RapierEngine.step advance d1 st = RapierEngine.step advance d2 st := by
  intro advance d1 d2 st
  rfl

theorem drainQueue_eq {μ ω : Type}
    (handler : μ → EngineSt μ ω → Except String (EngineSt μ ω))
    (q : List μ) (s : EngineSt μ ω) :
    Engine.drainQueue handler q s =
      (List.foldl (fun st m => Engine.applyMsg handler m st) s q, q) := by
  induction q generalizing s with
  | nil => rfl
  | cons m q ih => simp [Engine.drainQueue, ih, List.foldl]

/-- C8: one invocation of `Engine::handle_messages` dispatches exactly the
messages present in the subsystem queues at the moment of the call — event
handler first, then renderer, then the entities' queues concatenated, FIFO
within each — starting from the state in which all those queues are already
cleared.  The dispatch trace is the snapshot itself, for EVERY handler
behaviour, so messages a handler enqueues during the drain are never part of
this cycle's trace and sit in their producer's (cleared, then re-filled)
queue for the next cycle. -/
theorem C8_drain_snapshot :
    ∀ {μ ω : Type} (handler : μ → EngineSt μ ω → Except String (EngineSt μ ω))
      (s : EngineSt μ ω),
      Engine.handle_messages handler s =
        (List.foldl (fun st m => Engine.applyMsg handler m st) (Engine.cleared s)
            (s.ehQueue ++ s.rQueue ++ s.entityQueues.flatten),
         s.ehQueue ++ s.rQueue ++ s.entityQueues.flatten) := by
  intro μ ω handler s
  simp [Engine.handle_messages, Engine.drainQueues, drainQueue_eq,
    Engine.cleared, List.foldl_append]

/-- C6: within one call of `RapierEngine::step`, the three phases are a
strict sequential composition — every command of the queue snapshot is
applied (in FIFO order) to produce the pre-advance world, the pipeline
advance runs once on that world, and only then is the write-back computed
from the advanced world; the queue is left drained.  Each individual
command either succeeds (its `run_on_rb` mutation replaces the set) or
fails with a logged, dropped error that leaves the set unchanged. -/
theorem C6_step_phase_order :
    (∀ (advance : RigidBodySet → RigidBodySet) (delta : ℤ)
       (st : RapierEngine.State),
      RapierEngine.step advance delta st =
        Option.map
          (fun es => { entities := es,
                       bodies := advance
                         (RapierEngine.applyCommands st.entities st.bodies st.queue),
                       queue := ([] : List PhysicsCommand) })
          (RapierEngine.writeback
            (advance (RapierEngine.applyCommands st.entities st.bodies st.queue))
            st.entities)) ∧
    (∀ (ents : RapierEngine.Entities) (bodies : RigidBodySet) (c : PhysicsCommand),
      (∃ bodies', RapierEngine.handle_command ents bodies c = .ok bodies' ∧
        RapierEngine.applyCommand ents bodies c = bodies') ∨
      (∃ msg, RapierEngine.handle_command ents bodies c = .error msg ∧
        RapierEngine.applyCommand ents bodies c = bodies)) := by
  constructor
  · intro advance delta st
    simp only [RapierEngine.step]
    cases h : RapierEngine.writeback
        (advance (RapierEngine.applyCommands st.entities st.bodies st.queue))
        st.entities <;> simp [h]
  · intro ents bodies c
    cases h : RapierEngine.handle_command ents bodies c with
    | ok b => exact Or.inl ⟨b, rfl, by simp [RapierEngine.applyCommand, h]⟩
    | error m => exact Or.inr ⟨m, rfl, by simp [RapierEngine.applyCommand, h]⟩

theorem get?_append_length {α : Type} (b : List α) (a : α) (t : List α) :
    List.get? (List.append b (a :: t)) b.length = some a := by
  induction b with
  | nil => rfl
  | cons hd tl ih => simpa using ih

theorem new_bodies_prefix :
    ∀ (es : RapierEngine.Entities) (bodies : RigidBodySet)
      (cols : List (Collider × ℕ)),
      ∃ tail, (RapierEngine.new es bodies cols).2.1 = List.append bodies tail := by
  intro es
  induction es with
  | nil =>
    intro bodies cols
    exact ⟨[], by simp [RapierEngine.new]⟩
  | cons p rest ih =>
    intro bodies cols
    obtain ⟨i, e⟩ := p
    cases hb : e.body with
    | none =>
      simpa [RapierEngine.new, hb] using ih bodies cols
    | some pb =>
      cases hrb : pb.rigid_body with
      | pending rb =>
        obtain ⟨t, ht⟩ := ih
          (List.append bodies
            [{ rb with position := e.transform.position,
                       rotation := e.transform.rotation }])
          (cols ++ [(pb.collider, bodies.length)])
        refine ⟨{ rb with position := e.transform.position,
                          rotation := e.transform.rotation } :: t, ?_⟩
        simp [RapierEngine.new, hb, hrb, RigidBodySet.insert] at ht ⊢
        simpa using ht
      | active h => simpa [RapierEngine.new, hb, hrb] using ih bodies cols
      | removed => simpa [RapierEngine.new, hb, hrb] using ih bodies cols

theorem new_spec :
    ∀ (es : RapierEngine.Entities) (bodies : RigidBodySet)
      (cols : List (Collider × ℕ)),
      List.Forall₂
        (fun p p' => p.1 = p'.1 ∧
          C5rel (RapierEngine.new es bodies cols).2.1 p.2 p'.2)
        es (RapierEngine.new es bodies cols).1 := by
  intro es
  induction es with
  | nil => intro bodies cols; exact List.Forall₂.nil
  | cons p rest ih =>
    intro bodies cols
    obtain ⟨i, e⟩ := p
    cases hb : e.body with
    | none =>
      simp only [RapierEngine.new, hb]
      refine List.Forall₂.cons ⟨rfl, ?_⟩ (ih bodies cols)
      simp [C5rel, hb]
    | some pb =>
      cases hrb : pb.rigid_body with
      | pending rb =>
        simp only [RapierEngine.new, hb, hrb, RigidBodySet.insert]
        refine List.Forall₂.cons ⟨rfl, ?_⟩
          (ih (List.append bodies
            [{ rb with position := e.transform.position,
                       rotation := e.transform.rotation }])
            (cols ++ [(pb.collider, bodies.length)]))
        simp only [C5rel, hb, hrb]
        refine ⟨bodies.length, rfl, ?_⟩
        obtain ⟨t, ht⟩ := new_bodies_prefix rest
          (List.append bodies
            [{ rb with position := e.transform.position,
                       rotation := e.transform.rotation }])
          (cols ++ [(pb.collider, bodies.length)])
        rw [RigidBodySet.lookup, ht]
        have : List.append
            (List.append bodies
              [{ rb with position := e.transform.position,
                         rotation := e.transform.rotation }]) t =
            List.append bodies
              ({ rb with position := e.transform.position,
                         rotation := e.transform.rotation } :: t) := by
          simp
        rw [this, get?_append_length]
      | active h =>
        simp only [RapierEngine.new, hb, hrb]
        refine List.Forall₂.cons ⟨rfl, ?_⟩ (ih bodies cols)
        simp [C5rel, hb, hrb]
      | removed =>
        simp only [RapierEngine.new, hb, hrb]
        refine List.Forall₂.cons ⟨rfl, ?_⟩ (ih bodies cols)
        simp [C5rel, hb, hrb]

theorem writebackEntity_body (bodies : RigidBodySet) (e e' : EntityP)
    (h : RapierEngine.writebackEntity bodies e = some e') : e'.body = e.body := by
  cases hb : e.body with
  | none =>
    simp [RapierEngine.writebackEntity, hb] at h
    rw [← h]
    exact hb
  | some pb =>
    cases hrb : pb.rigid_body with
    | pending rb =>
      simp [RapierEngine.writebackEntity, hb, hrb] at h
      rw [← h]
    | removed =>
      simp [RapierEngine.writebackEntity, hb, hrb] at h
      rw [← h]
      exact hb
    | active hd =>
      cases hl : RigidBodySet.lookup bodies hd with
      | none => simp [RapierEngine.writebackEntity, hb, hrb, hl] at h
      | some rb =>
        simp [RapierEngine.writebackEntity, hb, hrb, hl] at h
        rw [← h]

theorem writeback_preserves_body :
    ∀ (bodies : RigidBodySet) (es es' : RapierEngine.Entities),
      RapierEngine.writeback bodies es = some es' →
      List.Forall₂ (fun p p' => p.1 = p'.1 ∧ p'.2.body = p.2.body) es es' := by
  intro bodies es
  induction es with
  | nil =>
    intro es' h
    simp [RapierEngine.writeback] at h
    rw [← h]
    exact List.Forall₂.nil
  | cons p rest ih =>
    intro es' h
    obtain ⟨i, e⟩ := p
    simp only [RapierEngine.writeback] at h
    cases he : RapierEngine.writebackEntity bodies e with
    | none => rw [he] at h; exact absurd h (by simp)
    | some e1 =>
      rw [he] at h
      cases hr : RapierEngine.writeback bodies rest with
      | none => rw [hr] at h; exact absurd h (by simp)
      | some r1 =>
        rw [hr] at h
        simp only [Option.some.injEq] at h
        rw [← h]
        exact List.Forall₂.cons ⟨rfl, writebackEntity_body bodies e e1 he⟩ (ih r1 hr)

/-- C5: the rigid-body registration state machine.  (1) The construction
scan of `RapierEngine::new` maps each entity as follows, relative to the
rigid-body set it builds: a Pending body is seeded with the entity's current
transform, inserted, and becomes Active exactly under the fresh handle the
world returned (the handle resolves to the seeded description); an entity
with an already-Active or Removed body — or no body — is left untouched
(never re-inserted).  (2) `RapierEngine::step` (commands plus write-back)
never changes any entity's registration state: Active stays Active with the
same handle, Removed stays Removed, Pending stays Pending. -/
theorem C5_registration_state_machine :
    (∀ (es : RapierEngine.Entities) (bodies : RigidBodySet)
       (cols : List (Collider × ℕ)),
      List.Forall₂
        (fun p p' => p.1 = p'.1 ∧
          C5rel (RapierEngine.new es bodies cols).2.1 p.2 p'.2)
        es (RapierEngine.new es bodies cols).1) ∧
    (∀ (advance : RigidBodySet → RigidBodySet) (delta : ℤ)
       (st st' : RapierEngine.State),
      RapierEngine.step advance delta st = some st' →
      List.Forall₂ (fun p p' => p.1 = p'.1 ∧ p'.2.body = p.2.body)
        st.entities st'.entities) := by
  refine ⟨new_spec, ?_⟩
  intro advance delta st st' h
  simp only [RapierEngine.step] at h
  cases hw : RapierEngine.writeback
      (advance (RapierEngine.applyCommands st.entities st.bodies st.queue))
      st.entities with
  | none => rw [hw] at h; exact absurd h (by simp)
  | some es' =>
    rw [hw] at h
    simp only [Option.some.injEq] at h
    have hents : st'.entities = es' := by rw [← h]
    rw [hents]
    exact writeback_preserves_body _ st.entities es' hw

/-- C5 witness: the construction-scan contract at the concrete registry
`c5Es` (one Pending-bodied entity, one entity without a physics component),
and state preservation across a concrete `step` that maps `c5St` (whose only
body is Removed) to itself. -/
theorem C5_witness :
    List.Forall₂
      (fun p p' => p.1 = p'.1 ∧
        C5rel (RapierEngine.new c5Es [] []).2.1 p.2 p'.2)
      c5Es (RapierEngine.new c5Es [] []).1 ∧
    List.Forall₂ (fun p p' => p.1 = p'.1 ∧ p'.2.body = p.2.body)
      c5St.entities c5St.entities :=
  ⟨C5_registration_state_machine.1 c5Es [] [],
   C5_registration_state_machine.2 c5adv 0 c5St c5St (by decide)⟩
